import Mathlib

/-!
Verification development for the Primetrade task-management backend.

The definitions below are a shallow embedding of the task subsystem:
the Mongoose Task schema (models/Task.js: enums, the completedAt save hook,
the dueDate validator, the isOverdue virtual, getUserStats), the Express
routes in backend/routes/tasks.js (list with filters and pagination,
getById, create, update, delete, stats overview), and the client helpers
in frontend/lib/tasks.ts (taskUtils.isOverdue, taskUtils.filterTasks).

Timestamps are modelled as integers (milliseconds since the epoch) and
object ids and user ids as natural numbers.  MongoDB comparison operators
on a field match only documents where the field is present, which the
embedding mirrors explicitly on the optional dueDate field.  The list
route passes the raw, unescaped search term to new RegExp with the i
flag and to a $regex clause, so the term is a regular-expression
pattern, not a literal: the embedding interprets the fragment of
patterns built from literal characters and the dot wildcard, and leaves
patterns containing any other metacharacter uninterpreted (no theorem
below instantiates the search with one).  The client-side helper instead
lower-cases and uses substring containment.
-/

namespace TaskApp

/-- Task status enum of the Mongoose schema. -/
inductive Status
  | pending
  | inProgress
  | completed
  | cancelled
deriving DecidableEq, Repr

/-- Task priority enum of the Mongoose schema. -/
inductive Priority
  | low
  | medium
  | high
  | urgent
deriving DecidableEq, Repr

/-- String form of a status, as stored in MongoDB and sent in query params. -/
def statusToString : Status → String
  | .pending => "pending"
  | .inProgress => "in-progress"
  | .completed => "completed"
  | .cancelled => "cancelled"

/-- String form of a priority. -/
def priorityToString : Priority → String
  | .low => "low"
  | .medium => "medium"
  | .high => "high"
  | .urgent => "urgent"

/-- A task document as persisted by the Task model (models/Task.js).
    Times are milliseconds since the epoch. -/
structure Task where
  id : Nat
  user : Nat
  title : String
  description : Option String
  status : Status
  priority : Priority
  dueDate : Option Int
  tags : List String
  completedAt : Option Int
  createdAt : Int
  updatedAt : Int
deriving DecidableEq, Repr

/-- Lower-cased character list of a string, for case-insensitive matching. -/
def lowerChars (s : String) : List Char :=
  s.toList.map Char.toLower

/-- Contiguous-substring test on character lists. -/
def hasSub (pat : List Char) : List Char → Bool
  | [] => pat.isEmpty
  | c :: rest => pat.isPrefixOf (c :: rest) || hasSub pat rest

/-- Case-insensitive substring test: the semantics of the client helper
    filter, which lower-cases both sides and uses includes, and the
    substring notion the specification claims for search. -/
def ciContains (hay pat : String) : Bool :=
  hasSub (lowerChars pat) (lowerChars hay)

/-- The metacharacters of JavaScript regular-expression patterns; a term
    free of them is matched literally by the engine. -/
def regexMetaChars : List Char :=
  ['.', '*', '+', '?', '(', ')', '[', ']', '{', '}', '|', '^', '$', '\\']

/-- A search term that contains no regex metacharacter, so the engine
    treats it as a literal. -/
def isLiteralTerm (s : String) : Bool :=
  s.toList.all (fun c => !regexMetaChars.contains c)

/-- One token of a regular-expression pattern in the fragment the
    embedding interprets: a literal character or the dot wildcard. -/
inductive RTok
  | lit (c : Char)
  | any
deriving DecidableEq, Repr

/-- Parse a pattern string into tokens of the interpreted fragment: the
    dot becomes the wildcard, a non-metacharacter a literal, and any
    other metacharacter puts the pattern outside the fragment. -/
def parsePattern : List Char → Option (List RTok)
  | [] => some []
  | c :: cs =>
    if c == '.' then (parsePattern cs).map (fun ts => RTok.any :: ts)
    else if regexMetaChars.contains c then none
    else (parsePattern cs).map (fun ts => RTok.lit c :: ts)

/-- Whether one pattern token matches one character, case-insensitively
    (the i flag): the wildcard matches anything, a literal matches up to
    case. -/
def tokMatches : RTok → Char → Bool
  | .lit c, d => c.toLower == d.toLower
  | .any, _ => true

/-- Whether the token list matches the text starting at its head. -/
def matchHere : List RTok → List Char → Bool
  | [], _ => true
  | _ :: _, [] => false
  | t :: ts, c :: cs => tokMatches t c && matchHere ts cs

/-- Unanchored search: the token list matches somewhere in the text, the
    test semantics of an unanchored regular expression. -/
def regexSearch (toks : List RTok) : List Char → Bool
  | [] => toks.isEmpty
  | c :: cs => matchHere toks (c :: cs) || regexSearch toks cs

/-- Matching a string against the case-insensitive regular expression
    the route builds from the raw search term.  Interpreted on the
    fragment of patterns made of literals and the dot wildcard; a term
    outside the fragment is left uninterpreted (modelled as no match,
    and never instantiated by the theorems below). -/
def regexTest (pattern s : String) : Bool :=
  match parsePattern pattern.toList with
  | some toks => regexSearch toks s.toList
  | none => false

/-- The pre save middleware of the Task schema (models/Task.js): when the
    status path was modified, set completedAt on completion if unset, and
    clear it when the new status is not completed. -/
def preSaveHook (statusModified : Bool) (now : Int) (t : Task) : Task :=
  if statusModified then
    if t.status == .completed && t.completedAt.isNone then
      { t with completedAt := some now }
    else if !(t.status == .completed) then
      { t with completedAt := none }
    else t
  else t

/-- The dueDate path validator of the Task schema: absent or strictly in
    the future at validation time. -/
def dueDateValidator (v : Option Int) (now : Int) : Bool :=
  match v with
  | none => true
  | some d => decide (now < d)

/-- The isOverdue virtual of the Task schema: due date present, in the
    past, and status not completed. -/
def isOverdueVirtual (t : Task) (now : Int) : Bool :=
  match t.dueDate with
  | none => false
  | some d => decide (d < now) && !(t.status == .completed)

/-- The overdue test of the client helper taskUtils.isOverdue
    (frontend/lib/tasks.ts): excludes both completed and cancelled. -/
def clientIsOverdue (t : Task) (now : Int) : Bool :=
  match t.dueDate with
  | none => false
  | some d =>
    if t.status == .completed || t.status == .cancelled then false
    else decide (d < now)

/-- The overdue predicate exactly as the specification words it: due date
    present, strictly before now, and status neither completed nor
    cancelled.  Written from the spec for comparison with the code. -/
def specIsOverdue (t : Task) (now : Int) : Bool :=
  match t.dueDate with
  | none => false
  | some d => decide (d < now) && !(t.status == .completed) && !(t.status == .cancelled)

/-- Body of a POST /tasks request after express-validator typing. -/
structure CreatePayload where
  title : String
  description : Option String
  status : Option Status
  priority : Option Priority
  dueDate : Option Int
  tags : Option (List String)
deriving DecidableEq, Repr

/-- The express-validator body checks of the create route
    (routes/tasks.js): title 1..100, description up to 500, each tag
    1..20.  Enum and date-parse checks are captured by the typing of
    CreatePayload. -/
def createBodyValid (p : CreatePayload) : Bool :=
  (1 ≤ p.title.length && p.title.length ≤ 100)
  && (match p.description with | some d => d.length ≤ 500 | none => true)
  && (match p.tags with
      | some ts => ts.all (fun x => 1 ≤ x.length && x.length ≤ 20)
      | none => true)

/-- Result of the create route. -/
inductive CreateResult
  | validationError
  | ok (task : Task)
deriving DecidableEq, Repr

/-- POST /tasks (routes/tasks.js): validate the body, apply schema
    defaults, run the schema dueDate validator and the pre save hook
    (Task.create saves a new document, so every set path counts as
    modified), and persist. -/
def createTask (ownerId newId : Nat) (p : CreatePayload) (now : Int) : CreateResult :=
  if !createBodyValid p then .validationError
  else if !dueDateValidator p.dueDate now then .validationError
  else
    .ok (preSaveHook true now
      { id := newId
        user := ownerId
        title := p.title
        description := p.description
        status := p.status.getD .pending
        priority := p.priority.getD .medium
        dueDate := p.dueDate
        tags := p.tags.getD []
        completedAt := none
        createdAt := now
        updatedAt := now })

/-- Body of a PUT /tasks/:id request after express-validator typing.
    For dueDate, none means the field is absent from the payload,
    some none models a null or empty value (clearing the date), and
    some (some d) a parsed date. -/
structure UpdatePayload where
  title : Option String
  description : Option String
  status : Option Status
  priority : Option Priority
  dueDate : Option (Option Int)
  tags : Option (List String)
deriving DecidableEq, Repr

/-- The express-validator body checks of the update route, each applied
    only when the field is present. -/
def expressUpdateValid (p : UpdatePayload) : Bool :=
  (match p.title with | some x => 1 ≤ x.length && x.length ≤ 100 | none => true)
  && (match p.description with | some d => d.length ≤ 500 | none => true)
  && (match p.tags with
      | some ts => ts.all (fun x => 1 ≤ x.length && x.length ≤ 20)
      | none => true)

/-- The schema validators re-run by findByIdAndUpdate with
    runValidators true, on the paths present in the update.  The only
    schema validator not already subsumed by the express-validator layer
    is the dueDate future check. -/
def updateValidatorsPass (p : UpdatePayload) (now : Int) : Bool :=
  match p.dueDate with
  | none => true
  | some v => dueDateValidator v now

/-- The update document built by the update route (routes/tasks.js):
    only fields present in the body are written; findByIdAndUpdate
    applies it as a plain field merge, with no save hook, and the
    timestamps option refreshes updatedAt. -/
def applyUpdateData (p : UpdatePayload) (now : Int) (t : Task) : Task :=
  { t with
    title := match p.title with | some x => x | none => t.title
    description := match p.description with | some d => some d | none => t.description
    status := match p.status with | some s => s | none => t.status
    priority := match p.priority with | some x => x | none => t.priority
    dueDate := match p.dueDate with | some v => v | none => t.dueDate
    tags := match p.tags with | some ts => ts | none => t.tags
    updatedAt := now }

/-- Result of the update route. -/
inductive UpdateResult
  | validationError
  | notFound
  | ok (store : List Task) (task : Task)
deriving DecidableEq, Repr

/-- Replace the first task with the given id. -/
def replaceById : List Task → Nat → Task → List Task
  | [], _, _ => []
  | t :: ts, i, nt => if t.id == i then nt :: ts else t :: replaceById ts i nt

/-- PUT /tasks/:id (routes/tasks.js): express validation, then findOne on
    id and owner (404 on miss), then findByIdAndUpdate by id alone with
    runValidators true and new true. -/
def updateTask (store : List Task) (requesterId taskId : Nat) (p : UpdatePayload)
    (now : Int) : UpdateResult :=
  if !expressUpdateValid p then .validationError
  else
    match store.find? (fun t => t.id == taskId && t.user == requesterId) with
    | none => .notFound
    | some _ =>
      if !updateValidatorsPass p now then .validationError
      else
        match store.find? (fun t => t.id == taskId) with
        | none => .notFound
        | some target =>
          let updated := applyUpdateData p now target
          .ok (replaceById store taskId updated) updated

/-- GET /tasks/:id (routes/tasks.js): findOne on id and owner; none is a
    404 response. -/
def getTask (store : List Task) (requesterId taskId : Nat) : Option Task :=
  store.find? (fun t => t.id == taskId && t.user == requesterId)

/-- Result of the delete route. -/
inductive DeleteResult
  | notFound
  | ok (store : List Task)
deriving DecidableEq, Repr

/-- Remove the first task with the given id. -/
def removeById : List Task → Nat → List Task
  | [], _ => []
  | t :: ts, i => if t.id == i then ts else t :: removeById ts i

/-- DELETE /tasks/:id (routes/tasks.js): findOne on id and owner (404 on
    miss), then findByIdAndDelete by id. -/
def deleteTask (store : List Task) (requesterId taskId : Nat) : DeleteResult :=
  match store.find? (fun t => t.id == taskId && t.user == requesterId) with
  | none => .notFound
  | some _ => .ok (removeById store taskId)

/-- A raw date-valued query parameter: a string that new Date either
    parses to a timestamp or turns into Invalid Date. -/
inductive DateParam
  | valid (t : Int)
  | invalid
deriving DecidableEq, Repr

/-- Raw query parameters of GET /tasks, with numeric parameters already
    read as integers and enum parameters kept as strings. -/
structure RawListQuery where
  page : Option Int
  limit : Option Int
  status : Option String
  priority : Option String
  search : Option String
  tag : Option String
  dueBefore : Option DateParam
  dueAfter : Option DateParam
  sortBy : Option String
  sortOrder : Option String
deriving DecidableEq, Repr

/-- A field-level validation message, as produced by express-validator. -/
structure FieldError where
  field : String
  message : String
deriving DecidableEq, Repr

/-- Legal status strings of the list route validators. -/
def statusStrings : List String :=
  ["pending", "in-progress", "completed", "cancelled"]

/-- Legal priority strings of the list route validators. -/
def priorityStrings : List String :=
  ["low", "medium", "high", "urgent"]

/-- Legal sortBy strings of the list route validators. -/
def sortByStrings : List String :=
  ["createdAt", "updatedAt", "dueDate", "title", "priority"]

/-- An optional query check: no error when the parameter is absent or
    passes, one field error otherwise. -/
def optCheck (field msg : String) (v : Option α) (ok : α → Bool) : List FieldError :=
  match v with
  | none => []
  | some x => if ok x then [] else [⟨field, msg⟩]

/-- The express-validator chain of GET /tasks (routes/tasks.js lines
    12 to 18).  Note that dueBefore, dueAfter, search and tag have no
    validators attached. -/
def listQueryErrors (q : RawListQuery) : List FieldError :=
  optCheck "page" "Page must be a positive integer" q.page (fun p => decide (1 ≤ p))
  ++ optCheck "limit" "Limit must be between 1 and 100" q.limit
      (fun l => decide (1 ≤ l) && decide (l ≤ 100))
  ++ optCheck "status" "Invalid status" q.status (fun s => statusStrings.contains s)
  ++ optCheck "priority" "Invalid priority" q.priority (fun s => priorityStrings.contains s)
  ++ optCheck "sortBy" "Invalid sort field" q.sortBy (fun s => sortByStrings.contains s)
  ++ optCheck "sortOrder" "Sort order must be asc or desc" q.sortOrder
      (fun s => s == "asc" || s == "desc")

/-- An optional parameter check holds when the parameter is absent or
    its value passes. -/
def optHolds (v : Option α) (ok : α → Bool) : Bool :=
  match v with
  | none => true
  | some x => ok x

/-- Validity of the raw list parameters as the specification words it for
    the parameters the route actually validates: enum parameters drawn
    from their enums, page at least 1, limit between 1 and 100.
    Written from the spec for comparison with listQueryErrors. -/
def specListParamsValid (q : RawListQuery) : Bool :=
  optHolds q.page (fun p => decide (1 ≤ p))
  && optHolds q.limit (fun l => decide (1 ≤ l) && decide (l ≤ 100))
  && optHolds q.status (fun s => statusStrings.contains s)
  && optHolds q.priority (fun s => priorityStrings.contains s)
  && optHolds q.sortBy (fun s => sortByStrings.contains s)
  && optHolds q.sortOrder (fun s => s == "asc" || s == "desc")

/-- The typed descriptor the list route works from after validation:
    page and limit default via parseInt or-defaulting, sortBy defaults to
    createdAt, and any sortOrder other than asc sorts descending. -/
structure ListDescriptor where
  page : Int
  limit : Int
  sortBy : String
  sortOrder : String
deriving DecidableEq, Repr

/-- Descriptor construction of GET /tasks (routes/tasks.js lines 30 to 70). -/
def buildDescriptor (q : RawListQuery) : ListDescriptor :=
  { page := q.page.getD 1
    limit := q.limit.getD 10
    sortBy := q.sortBy.getD "createdAt"
    sortOrder := if q.sortOrder == some "asc" then "asc" else "desc" }

/-- The MongoDB query object built by GET /tasks (lines 34 to 65): an
    owner constraint plus optional status, priority, search, tag and due
    date clauses. -/
structure MongoTaskQuery where
  user : Nat
  status : Option String
  priority : Option String
  searchTerm : Option String
  tagEq : Option String
  dueLte : Option Int
  dueGte : Option Int
deriving DecidableEq, Repr

/-- Timestamp of a raw date parameter when it parsed. -/
def dateVal : Option DateParam → Option Int
  | some (.valid t) => some t
  | _ => none

/-- Query construction of GET /tasks from the raw parameters. -/
def buildMongoQuery (ownerId : Nat) (q : RawListQuery) : MongoTaskQuery :=
  { user := ownerId
    status := q.status
    priority := q.priority
    searchTerm := q.search
    tagEq := q.tag
    dueLte := dateVal q.dueBefore
    dueGte := dateVal q.dueAfter }

/-- MongoDB matching semantics of the built query against one document:
    every clause must hold; the search clause applies the
    case-insensitive regular expression built from the raw term to
    title, to description and to each tag, ORed; the tag clause is exact
    membership; a comparison clause on dueDate matches only documents
    where dueDate is present. -/
def matchesQuery (mq : MongoTaskQuery) (t : Task) : Bool :=
  t.user == mq.user
  && (match mq.status with | none => true | some s => statusToString t.status == s)
  && (match mq.priority with | none => true | some s => priorityToString t.priority == s)
  && (match mq.searchTerm with
      | none => true
      | some s =>
        regexTest s t.title
        || (match t.description with | some d => regexTest s d | none => false)
        || t.tags.any (fun tg => regexTest s tg))
  && (match mq.tagEq with | none => true | some tg => t.tags.contains tg)
  && (match mq.dueLte with
      | none => true
      | some b => match t.dueDate with | some d => decide (d ≤ b) | none => false)
  && (match mq.dueGte with
      | none => true
      | some a => match t.dueDate with | some d => decide (a ≤ d) | none => false)

/-- Result of the list route.  A raw date parameter that does not parse
    reaches the store layer as Invalid Date and fails there as a cast
    error, not as a field validation error. -/
inductive ListResult
  | validationError (errors : List FieldError)
  | castError
  | ok (items : List Task) (total : Nat) (count : Nat)
deriving DecidableEq, Repr

/-- Whether a raw date parameter is present but unparseable. -/
def isInvalidDate : Option DateParam → Bool
  | some .invalid => true
  | _ => false

/-- GET /tasks (routes/tasks.js): run the validator chain, build the
    query, count all matching documents, then return the page slice.
    The route also sorts the matches by the descriptor sort key before
    slicing; sorting permutes the matches and is not modelled, and the
    properties proved below are invariant under it. -/
def listTasks (store : List Task) (ownerId : Nat) (q : RawListQuery) : ListResult :=
  if !(listQueryErrors q).isEmpty then .validationError (listQueryErrors q)
  else if isInvalidDate q.dueBefore || isInvalidDate q.dueAfter then .castError
  else
    .ok (((store.filter (fun t => matchesQuery (buildMongoQuery ownerId q) t)).drop
            (((buildDescriptor q).page - 1) * (buildDescriptor q).limit).toNat).take
          (buildDescriptor q).limit.toNat)
        (store.filter (fun t => matchesQuery (buildMongoQuery ownerId q) t)).length
        (((store.filter (fun t => matchesQuery (buildMongoQuery ownerId q) t)).drop
            (((buildDescriptor q).page - 1) * (buildDescriptor q).limit).toNat).take
          (buildDescriptor q).limit.toNat).length

/-- Aggregate status counts of the getUserStats static (models/Task.js):
    group the tasks of one owner by status, report absent groups as zero,
    and accumulate total as the sum of the group counts. -/
def countStatus (tasks : List Task) (ownerId : Nat) (s : Status) : Nat :=
  (tasks.filter (fun t => t.user == ownerId && t.status == s)).length

/-- Stats record returned by getUserStats. -/
structure UserStats where
  total : Nat
  pending : Nat
  inProgress : Nat
  completed : Nat
  cancelled : Nat
deriving DecidableEq, Repr

/-- The getUserStats static of the Task model. -/
def getUserStats (tasks : List Task) (ownerId : Nat) : UserStats :=
  let p := countStatus tasks ownerId .pending
  let ip := countStatus tasks ownerId .inProgress
  let c := countStatus tasks ownerId .completed
  let ca := countStatus tasks ownerId .cancelled
  { total := p + ip + c + ca
    pending := p
    inProgress := ip
    completed := c
    cancelled := ca }

/-- Milliseconds per day. -/
def msPerDay : Int := 86400000

/-- Midnight at the start of the day containing a timestamp, the effect
    of setHours zero on a date. -/
def startOfDay (t : Int) : Int := t - t % msPerDay

/-- The overdue count query of GET /tasks/stats/overview: due date
    present and before now, status neither completed nor cancelled. -/
def overdueCount (tasks : List Task) (ownerId : Nat) (now : Int) : Nat :=
  (tasks.filter (fun t =>
    t.user == ownerId
    && (match t.dueDate with | some d => decide (d < now) | none => false)
    && !(t.status == .completed || t.status == .cancelled))).length

/-- The due-today count query of GET /tasks/stats/overview: due date
    within the day of now, status neither completed nor cancelled. -/
def dueTodayCount (tasks : List Task) (ownerId : Nat) (now : Int) : Nat :=
  (tasks.filter (fun t =>
    t.user == ownerId
    && (match t.dueDate with
        | some d => decide (startOfDay now ≤ d) && decide (d < startOfDay (now + msPerDay))
        | none => false)
    && !(t.status == .completed || t.status == .cancelled))).length

/-- Full stats record of GET /tasks/stats/overview. -/
structure OverviewStats where
  total : Nat
  pending : Nat
  inProgress : Nat
  completed : Nat
  cancelled : Nat
  overdue : Nat
  dueToday : Nat
deriving DecidableEq, Repr

/-- GET /tasks/stats/overview (routes/tasks.js lines 307 to 339): the
    aggregate status counts, then the overdue count with a clock read
    taken at line 313, then the due-today count with a second clock read
    taken at line 318.  The two reads are the parameters nowOverdue and
    nowToday. -/
def statsOverview (tasks : List Task) (ownerId : Nat)
    (nowOverdue nowToday : Int) : OverviewStats :=
  let s := getUserStats tasks ownerId
  { total := s.total
    pending := s.pending
    inProgress := s.inProgress
    completed := s.completed
    cancelled := s.cancelled
    overdue := overdueCount tasks ownerId nowOverdue
    dueToday := dueTodayCount tasks ownerId nowToday }

/-- Client-side filter input of taskUtils.filterTasks
    (frontend/lib/tasks.ts). -/
structure ClientFilters where
  status : Option Status
  priority : Option Priority
  search : Option String
  tag : Option String
  dueBefore : Option Int
  dueAfter : Option Int
deriving DecidableEq, Repr

/-- One-task predicate of taskUtils.filterTasks: each date filter is
    applied only when the task has a due date, so tasks without one pass. -/
def taskPassesClientFilters (f : ClientFilters) (t : Task) : Bool :=
  (match f.status with | some s => t.status == s | none => true)
  && (match f.priority with | some x => t.priority == x | none => true)
  && (match f.search with
      | some s =>
        ciContains t.title s
        || (match t.description with | some d => ciContains d s | none => false)
        || t.tags.any (fun tg => ciContains tg s)
      | none => true)
  && (match f.tag with | some tg => t.tags.contains tg | none => true)
  && (match f.dueBefore, t.dueDate with
      | some b, some d => !decide (b < d)
      | _, _ => true)
  && (match f.dueAfter, t.dueDate with
      | some a, some d => !decide (d < a)
      | _, _ => true)

/-- The taskUtils.filterTasks helper. -/
def filterTasks (tasks : List Task) (f : ClientFilters) : List Task :=
  tasks.filter (taskPassesClientFilters f)

/-- Raw list query with every parameter absent. -/
def emptyRawQuery : RawListQuery :=
  { page := none, limit := none, status := none, priority := none, search := none
    tag := none, dueBefore := none, dueAfter := none, sortBy := none, sortOrder := none }

/-- Client filter input with every filter absent. -/
def emptyClientFilters : ClientFilters :=
  { status := none, priority := none, search := none, tag := none
    dueBefore := none, dueAfter := none }

/-- Update payload with every field absent. -/
def emptyUpdate : UpdatePayload :=
  { title := none, description := none, status := none, priority := none
    dueDate := none, tags := none }

/-- A pending task of owner 7 with no due date, used as a base document
    for concrete evaluations. -/
def baseTask : Task :=
  { id := 1, user := 7, title := "Write report", description := none
    status := .pending, priority := .medium, dueDate := none, tags := []
    completedAt := none, createdAt := 0, updatedAt := 0 }

/-- Raw list query carrying only a search term. -/
def searchOnlyQuery (s : String) : RawListQuery :=
  { emptyRawQuery with search := some s }

/-- Raw list query carrying only an exact tag filter. -/
def tagOnlyQuery (tg : String) : RawListQuery :=
  { emptyRawQuery with tag := some tg }

/-- A task of user 5, for the cross-user isolation witness. -/
def c2Task : Task := { baseTask with user := 5 }

/-- A task whose only search hit is the tag urgent-fix. -/
def c8Task : Task := { baseTask with tags := ["urgent-fix"] }

/-- A task tagged urgentfix, which the exact tag filter urgent misses. -/
def c8TagTask : Task := { baseTask with tags := ["urgentfix"] }

/-- A task titled abc, matched by the regex pattern a.c although a.c is
    not a substring of abc. -/
def c8RegexTask : Task := { baseTask with title := "abc" }

/-- Three tasks of owner 7, for the pagination witness. -/
def c7Store : List Task :=
  [baseTask,
   { baseTask with id := 2, title := "Second" },
   { baseTask with id := 3, title := "Third" }]

/-- Page two of size two. -/
def c7Query : RawListQuery := { emptyRawQuery with page := some 2, limit := some 2 }

/-- Tasks for the stats clock counterexample: one due at the last
    millisecond of day zero, two due early on day one. -/
def c3Tasks : List Task :=
  [{ baseTask with id := 1, dueDate := some 86399999 },
   { baseTask with id := 2, dueDate := some 86400001 },
   { baseTask with id := 3, dueDate := some 86400002 }]

/-- A cancelled task with a past due date. -/
def c4Task : Task := { baseTask with status := .cancelled, dueDate := some 50 }

/-- A task of owner 7 with a future due date. -/
def c5Task : Task := { baseTask with dueDate := some 2000 }

/-- A list query whose only parameter is an unparseable dueBefore string. -/
def c6BadDateQuery : RawListQuery := { emptyRawQuery with dueBefore := some .invalid }

/-- Update payload clearing the due date. -/
def c5Clear : UpdatePayload := { emptyUpdate with dueDate := some none }

/-- Update payload supplying a past due date. -/
def c5Past : UpdatePayload := { emptyUpdate with dueDate := some (some 500) }

/-- Update payload supplying a future due date. -/
def c5Future : UpdatePayload := { emptyUpdate with dueDate := some (some 5000) }

/-- Filtering with a stronger predicate keeps at most as many elements. -/
theorem filter_length_mono (l : List Task) (p q : Task → Bool)
    (h : ∀ x, p x = true → q x = true) :
    (l.filter p).length ≤ (l.filter q).length := by
  induction l with
  | nil => simp
  | cons a as ih =>
    simp only [List.filter_cons]
    cases hp : p a
    · cases hq : q a
      · simpa using ih
      · simp only [List.length_cons]
        exact Nat.le_succ_of_le ih
    · rw [h a hp]
      simpa using ih

/-- Every task of an owner falls in exactly one status bucket, so the
    four bucket counts sum to the owner task count. -/
theorem sum_countStatus (tasks : List Task) (o : Nat) :
    countStatus tasks o .pending + countStatus tasks o .inProgress
      + countStatus tasks o .completed + countStatus tasks o .cancelled
      = (tasks.filter (fun t => t.user == o)).length := by
  induction tasks with
  | nil => rfl
  | cons a as ih =>
    simp only [countStatus, List.filter_cons] at *
    cases hu : (a.user == o)
    · simpa [hu] using ih
    · cases hs : a.status <;> simp [hu, hs] <;> omega

/-- An optional query check passes exactly when any present value passes. -/
theorem optCheck_eq_nil (f m : String) (v : Option α) (ok : α → Bool) :
    optCheck f m v ok = [] ↔ ∀ x, v = some x → ok x = true := by
  cases v with
  | none => simp [optCheck]
  | some x =>
    simp only [optCheck, Option.some.injEq]
    constructor
    · intro h y hy
      subst hy
      by_contra hb
      simp [Bool.not_eq_true] at hb
      simp [hb] at h
    · intro h
      simp [h x rfl]

/-- C2: for a task of user A, requests authenticated as a different user
    B to getById, update and delete answer exactly as they do for an id
    that exists nowhere: not found, with the store left unmodified and no
    task data returned, so the two cases are indistinguishable to B. -/
theorem c2_cross_user_indistinguishable
    (store : List Task) (t : Task) (a b freshId : Nat)
    (_ht : t ∈ store) (_howner : t.user = a) (hab : b ≠ a)
    (hid : ∀ u ∈ store, u.id = t.id → u.user = a)
    (hfresh : ∀ u ∈ store, u.id ≠ freshId)
    (p : UpdatePayload) (now : Int)
    (hp : expressUpdateValid p = true) :
    getTask store b t.id = none
    ∧ getTask store b freshId = none
    ∧ updateTask store b t.id p now = .notFound
    ∧ updateTask store b freshId p now = .notFound
    ∧ deleteTask store b t.id = .notFound
    ∧ deleteTask store b freshId = .notFound := by
  have hfind1 : store.find? (fun u => u.id == t.id && u.user == b) = none := by
    rw [List.find?_eq_none]
    intro u hu
    simp only [Bool.and_eq_true, beq_iff_eq, not_and]
    intro h1 h2
    exact hab (by rw [← h2]; exact hid u hu h1)
  have hfind2 : store.find? (fun u => u.id == freshId && u.user == b) = none := by
    rw [List.find?_eq_none]
    intro u hu
    simp only [Bool.and_eq_true, beq_iff_eq, not_and]
    intro h1 _
    exact absurd h1 (hfresh u hu)
  refine ⟨hfind1, hfind2, ?_, ?_, ?_, ?_⟩
  · simp [updateTask, hp, hfind1]
  · simp [updateTask, hp, hfind2]
  · simp [deleteTask, hfind1]
  · simp [deleteTask, hfind2]

/-- C2 witness: the theorem applied to a one-task store owned by user 5,
    queried as user 7, with fresh id 2. -/
theorem c2_cross_user_indistinguishable_witness :
    getTask [c2Task] 7 c2Task.id = none
    ∧ getTask [c2Task] 7 2 = none
    ∧ updateTask [c2Task] 7 c2Task.id emptyUpdate 0 = .notFound
    ∧ updateTask [c2Task] 7 2 emptyUpdate 0 = .notFound
    ∧ deleteTask [c2Task] 7 c2Task.id = .notFound
    ∧ deleteTask [c2Task] 7 2 = .notFound :=
  c2_cross_user_indistinguishable [c2Task] c2Task 5 7 2 (by decide) (by decide)
    (by decide) (by decide) (by decide) emptyUpdate 0 (by decide)

/-- C1: updating a pending task to completed through the update endpoint
    persists completedAt unset, because findByIdAndUpdate bypasses the
    pre save hook; the same transition at creation does set completedAt.
    This evaluates the code at the failing input. -/
theorem c1_update_bypasses_completedAt_hook :
    createTask 7 1
      { title := "t", description := none, status := some .completed
        priority := none, dueDate := none, tags := none } 1000
      = .ok { id := 1, user := 7, title := "t", description := none
              status := .completed, priority := .medium, dueDate := none
              tags := [], completedAt := some 1000, createdAt := 1000, updatedAt := 1000 }
    ∧ updateTask [baseTask] 7 1 { emptyUpdate with status := some .completed } 1000
      = .ok [{ baseTask with status := .completed, updatedAt := 1000 }]
            { baseTask with status := .completed, updatedAt := 1000 }
    ∧ ({ baseTask with status := .completed, updatedAt := 1000 }).completedAt = none := by
  decide

/-- C3 counterexample: with the overdue clock read at the last
    millisecond of day zero and the due-today clock read one millisecond
    later on day one, the stats overview differs from the overview
    computed with either read used as a single now, so the two date
    queries do not share one captured now. -/
theorem c3_counterexample :
    statsOverview c3Tasks 7 86399999 86400000 ≠ statsOverview c3Tasks 7 86399999 86399999
    ∧ statsOverview c3Tasks 7 86399999 86400000 ≠ statsOverview c3Tasks 7 86400000 86400000 := by
  decide

/-- C4 counterexample: on a cancelled task with a past due date the
    isOverdue virtual returns true, while the specified predicate, which
    also excludes cancelled, returns false. -/
theorem c4_counterexample : isOverdueVirtual c4Task 100 ≠ specIsOverdue c4Task 100 := by
  decide

/-- C5 counterexample: an update that supplies a due date in the past is
    rejected with a validation error, because findByIdAndUpdate runs the
    schema future-date validator on the dueDate path, contradicting the
    claim that it is accepted and persisted. -/
theorem c5_counterexample :
    updateTask [c5Task] 7 1 { emptyUpdate with dueDate := some (some 500) } 1000
      = .validationError := by
  decide

/-- C6 counterexample: a list request whose dueBefore does not parse
    produces no field validation errors at all; the bad value reaches the
    store layer and fails there as a cast error, not as a ValidationError
    of the parser. -/
theorem c6_counterexample :
    listQueryErrors c6BadDateQuery = [] ∧ listTasks [] 7 c6BadDateQuery = .castError := by
  decide

/-- C3 amended: for every owner the stats overview reports a count for
    each of the four statuses whose sum equals total, and the overdue and
    due-today counts are each at most total, for any pair of clock reads;
    the two date queries use separately captured nows, not a single one. -/
theorem c3_stats_totals (tasks : List Task) (ownerId : Nat) (n1 n2 : Int) :
    (statsOverview tasks ownerId n1 n2).pending
        + (statsOverview tasks ownerId n1 n2).inProgress
        + (statsOverview tasks ownerId n1 n2).completed
        + (statsOverview tasks ownerId n1 n2).cancelled
      = (statsOverview tasks ownerId n1 n2).total
    ∧ (statsOverview tasks ownerId n1 n2).overdue ≤ (statsOverview tasks ownerId n1 n2).total
    ∧ (statsOverview tasks ownerId n1 n2).dueToday ≤ (statsOverview tasks ownerId n1 n2).total := by
  have htotal : (statsOverview tasks ownerId n1 n2).total
      = (tasks.filter (fun t => t.user == ownerId)).length := by
    simpa [statsOverview, getUserStats] using sum_countStatus tasks ownerId
  refine ⟨rfl, ?_, ?_⟩
  · rw [htotal]
    apply filter_length_mono
    intro x hx
    simp only [Bool.and_eq_true] at hx
    exact hx.1.1
  · rw [htotal]
    apply filter_length_mono
    intro x hx
    simp only [Bool.and_eq_true] at hx
    exact hx.1.1

/-- C4 amended: the isOverdue virtual served on reads is true exactly
    when the due date is present and past and the status is not
    completed, so a cancelled task with a past due date is also reported
    overdue; the client-side helper additionally excludes cancelled and
    matches the specified predicate. -/
theorem c4_overdue_on_read (t : Task) (now : Int) :
    (isOverdueVirtual t now = true ↔
      (∃ d, t.dueDate = some d ∧ d < now) ∧ t.status ≠ .completed)
    ∧ clientIsOverdue t now = specIsOverdue t now := by
  constructor
  · cases hd : t.dueDate with
    | none => simp [isOverdueVirtual, hd]
    | some d => simp [isOverdueVirtual, hd]
  · cases hd : t.dueDate with
    | none => simp [clientIsOverdue, specIsOverdue, hd]
    | some d =>
      cases hs : t.status <;> cases hlt : (decide (d < now)) <;>
        simp only [clientIsOverdue, specIsOverdue, hd, hs, hlt] <;> decide

/-- A check quantified over the present value is the optHolds form. -/
theorem opt_all_iff (v : Option α) (ok : α → Bool) :
    (∀ x, v = some x → ok x = true) ↔ optHolds v ok = true := by
  cases v <;> simp [optHolds]

/-- C5 amended: on update, clearing the due date with null or empty is
    always accepted; a non-null due date IS revalidated against now,
    because findByIdAndUpdate runs the schema future-date validator on
    the dueDate path: a past or present date is rejected with a
    validation error, and a future date is accepted and persisted. -/
theorem c5_update_dueDate_rules
    (store : List Task) (requesterId taskId : Nat) (p : UpdatePayload) (now : Int)
    (hp : expressUpdateValid p = true)
    (hfound : (store.find? (fun u => u.id == taskId && u.user == requesterId)).isSome = true) :
    (p.dueDate = some none →
      ∃ st u, updateTask store requesterId taskId p now = .ok st u ∧ u.dueDate = none)
    ∧ (∀ d, p.dueDate = some (some d) → d ≤ now →
        updateTask store requesterId taskId p now = .validationError)
    ∧ (∀ d, p.dueDate = some (some d) → now < d →
        ∃ st u, updateTask store requesterId taskId p now = .ok st u ∧ u.dueDate = some d) := by
  obtain ⟨w, hw⟩ := Option.isSome_iff_exists.mp hfound
  have hwid : (w.id == taskId) = true := by
    have hpw := List.find?_some hw
    simp only [Bool.and_eq_true] at hpw
    exact hpw.1
  obtain ⟨tg, htg⟩ : ∃ tg, store.find? (fun u => u.id == taskId) = some tg := by
    apply Option.isSome_iff_exists.mp
    rw [List.find?_isSome]
    exact ⟨w, List.mem_of_find?_eq_some hw, hwid⟩
  refine ⟨?_, ?_, ?_⟩
  · intro hdue
    refine ⟨replaceById store taskId (applyUpdateData p now tg), applyUpdateData p now tg, ?_, ?_⟩
    · simp [updateTask, hp, hw, htg, updateValidatorsPass, hdue, dueDateValidator]
    · simp [applyUpdateData, hdue]
  · intro d hdue hle
    have hv : dueDateValidator (some d) now = false := by
      simp only [dueDateValidator, decide_eq_false_iff_not]
      omega
    simp [updateTask, hp, hw, updateValidatorsPass, hdue, hv]
  · intro d hdue hlt
    refine ⟨replaceById store taskId (applyUpdateData p now tg), applyUpdateData p now tg, ?_, ?_⟩
    · simp [updateTask, hp, hw, htg, updateValidatorsPass, hdue, dueDateValidator, hlt]
    · simp [applyUpdateData, hdue]

/-- C5 witness: the update rules applied to a one-task store for the
    clearing, past-date and future-date payloads. -/
theorem c5_update_dueDate_rules_witness :
    (∃ st u, updateTask [c5Task] 7 1 c5Clear 1000 = .ok st u ∧ u.dueDate = none)
    ∧ updateTask [c5Task] 7 1 c5Past 1000 = .validationError
    ∧ (∃ st u, updateTask [c5Task] 7 1 c5Future 1000 = .ok st u ∧ u.dueDate = some 5000) :=
  ⟨(c5_update_dueDate_rules [c5Task] 7 1 c5Clear 1000 (by decide) (by decide)).1 rfl,
   (c5_update_dueDate_rules [c5Task] 7 1 c5Past 1000 (by decide) (by decide)).2.1 500 rfl
     (by decide),
   (c5_update_dueDate_rules [c5Task] 7 1 c5Future 1000 (by decide) (by decide)).2.2 5000 rfl
     (by decide)⟩

/-- C6 amended: the list query validator chain rejects exactly the
    requests with an invalid enum parameter or an out-of-range page or
    limit, reporting field-level messages; dueBefore and dueAfter are not
    validated, and the descriptor defaults are page 1, limit 10, sortBy
    createdAt, sortOrder desc. -/
theorem c6_list_param_validation (q : RawListQuery) :
    (listQueryErrors q = [] ↔ specListParamsValid q = true)
    ∧ buildDescriptor { q with page := none, limit := none, sortBy := none, sortOrder := none }
        = { page := 1, limit := 10, sortBy := "createdAt", sortOrder := "desc" } := by
  constructor
  · simp only [listQueryErrors, List.append_eq_nil, optCheck_eq_nil, opt_all_iff,
      specListParamsValid]
    simp only [Bool.and_eq_true]
  · rfl

/-- C6 defaults witness: the validation characterization and defaults at
    the empty query. -/
theorem c6_list_param_validation_witness :
    (listQueryErrors emptyRawQuery = [] ↔ specListParamsValid emptyRawQuery = true)
    ∧ buildDescriptor
        { emptyRawQuery with page := none, limit := none, sortBy := none, sortOrder := none }
        = { page := 1, limit := 10, sortBy := "createdAt", sortOrder := "desc" } :=
  c6_list_param_validation emptyRawQuery

/-- C7: when the list route answers ok, total counts every record of the
    owner matching the filter predicate ignoring pagination, and the
    number of returned items is the truncated minimum of limit and
    total minus the start index. -/
theorem c7_list_pagination
    (store : List Task) (ownerId : Nat) (q : RawListQuery)
    (items : List Task) (total count : Nat)
    (h : listTasks store ownerId q = .ok items total count) :
    total = (store.filter (fun t => matchesQuery (buildMongoQuery ownerId q) t)).length
    ∧ items.length
        = min (buildDescriptor q).limit.toNat
            (total - (((buildDescriptor q).page - 1) * (buildDescriptor q).limit).toNat) := by
  unfold listTasks at h
  split at h
  · exact ListResult.noConfusion h
  · split at h
    · exact ListResult.noConfusion h
    · cases h
      refine ⟨rfl, ?_⟩
      rw [List.length_take, List.length_drop]

/-- C7 witness: page two of size two over a three-task store returns one
    item. -/
theorem c7_list_pagination_witness :
    3 = (c7Store.filter (fun t => matchesQuery (buildMongoQuery 7 c7Query) t)).length
    ∧ ([{ baseTask with id := 3, title := "Third" }] : List Task).length
        = min (buildDescriptor c7Query).limit.toNat
            (3 - (((buildDescriptor c7Query).page - 1) * (buildDescriptor c7Query).limit).toNat) :=
  c7_list_pagination c7Store 7 c7Query [{ baseTask with id := 3, title := "Third" }] 3 1
    (by decide)

/-- A pattern free of metacharacters parses to its literal tokens. -/
theorem parsePattern_literal (cs : List Char)
    (h : cs.all (fun c => !regexMetaChars.contains c) = true) :
    parsePattern cs = some (cs.map RTok.lit) := by
  induction cs with
  | nil => rfl
  | cons c rest ih =>
    simp only [List.all_cons, Bool.and_eq_true, Bool.not_eq_true'] at h
    have hdot : (c == '.') = false := by
      cases he : c == '.'
      · rfl
      · rw [beq_iff_eq] at he
        subst he
        simp [regexMetaChars] at h
    have hc : c ∉ regexMetaChars := by simpa using h.1
    simp [parsePattern, hdot, hc, ih h.2]

/-- Matching literal tokens at the head of the text is prefix equality
    of the lower-cased strings. -/
theorem matchHere_lit (cs hs : List Char) :
    matchHere (cs.map RTok.lit) hs
      = (cs.map Char.toLower).isPrefixOf (hs.map Char.toLower) := by
  induction cs generalizing hs with
  | nil => simp [matchHere, List.isPrefixOf]
  | cons c rest ih =>
    cases hs with
    | nil => simp [matchHere, List.isPrefixOf]
    | cons h hrest => simp [matchHere, tokMatches, List.isPrefixOf, ih]

/-- Searching literal tokens anywhere in the text is substring search of
    the lower-cased strings. -/
theorem regexSearch_lit (cs hay : List Char) :
    regexSearch (cs.map RTok.lit) hay
      = hasSub (cs.map Char.toLower) (hay.map Char.toLower) := by
  induction hay with
  | nil => cases cs <;> simp [regexSearch, hasSub]
  | cons c rest ih => simp [regexSearch, hasSub, matchHere_lit, ih]

/-- On a term without regex metacharacters, the regex the route builds
    matches a string exactly when the term is a case-insensitive
    substring of it. -/
theorem regexTest_literal (s : String) (h : isLiteralTerm s = true) (hay : String) :
    regexTest s hay = ciContains hay s := by
  unfold regexTest ciContains lowerChars
  rw [parsePattern_literal s.toList h]
  exact regexSearch_lit s.toList hay.toList

/-- C8 counterexample: the route passes the raw search term to the regex
    engine unescaped, so the term a.c, whose dot is a wildcard, matches
    a task titled abc even though a.c is not a case-insensitive
    substring of abc, of the absent description, or of the empty tag
    list; search is therefore regex matching, not substring matching. -/
theorem c8_counterexample :
    matchesQuery (buildMongoQuery 7 (searchOnlyQuery "a.c")) c8RegexTask = true
    ∧ ciContains c8RegexTask.title "a.c" = false
    ∧ c8RegexTask.description = none
    ∧ c8RegexTask.tags = [] := by
  decide

/-- C8 amended: for a search term free of regex metacharacters, a task
    matches the search clause exactly when the term is a
    case-insensitive substring of its title, of its description, or of
    any of its tags, ANDed with the owner constraint, while the tag
    parameter matches only by exact tag equality; in particular the term
    urgent matches a task whose only hit is the tag urgent-fix, but the
    exact tag filter urgent does not match a task tagged urgentfix. -/
theorem c8_search_regex_tag_exact (o : Nat) (t : Task) (s tg : String)
    (hs : isLiteralTerm s = true) :
    (matchesQuery (buildMongoQuery o (searchOnlyQuery s)) t = true ↔
      t.user = o ∧
        (ciContains t.title s = true
          ∨ (∃ d, t.description = some d ∧ ciContains d s = true)
          ∨ ∃ x ∈ t.tags, ciContains x s = true))
    ∧ (matchesQuery (buildMongoQuery o (tagOnlyQuery tg)) t = true ↔
        t.user = o ∧ tg ∈ t.tags)
    ∧ matchesQuery (buildMongoQuery 7 (searchOnlyQuery "urgent")) c8Task = true
    ∧ matchesQuery (buildMongoQuery 7 (tagOnlyQuery "urgent")) c8TagTask = false := by
  refine ⟨?_, ?_, by decide, by decide⟩
  · simp only [matchesQuery, buildMongoQuery, searchOnlyQuery, emptyRawQuery, dateVal,
      regexTest_literal s hs, Bool.and_true, Bool.true_and, Bool.and_eq_true,
      Bool.or_eq_true, beq_iff_eq, List.any_eq_true]
    cases hd : t.description <;> simp [hd, or_assoc]
  · simp only [matchesQuery, buildMongoQuery, tagOnlyQuery, emptyRawQuery, dateVal,
      Bool.and_true, Bool.true_and, Bool.and_eq_true, beq_iff_eq]
    simp [List.contains]

/-- C8 witness: the amended search and tag semantics applied to the term
    urgent, which has no metacharacter, and the urgent-fix task. -/
theorem c8_search_regex_tag_exact_witness :
    (matchesQuery (buildMongoQuery 7 (searchOnlyQuery "urgent")) c8Task = true ↔
      c8Task.user = 7 ∧
        (ciContains c8Task.title "urgent" = true
          ∨ (∃ d, c8Task.description = some d ∧ ciContains d "urgent" = true)
          ∨ ∃ x ∈ c8Task.tags, ciContains x "urgent" = true))
    ∧ (matchesQuery (buildMongoQuery 7 (tagOnlyQuery "urgent")) c8Task = true ↔
        c8Task.user = 7 ∧ "urgent" ∈ c8Task.tags)
    ∧ matchesQuery (buildMongoQuery 7 (searchOnlyQuery "urgent")) c8Task = true
    ∧ matchesQuery (buildMongoQuery 7 (tagOnlyQuery "urgent")) c8TagTask = false :=
  c8_search_regex_tag_exact 7 c8Task "urgent" "urgent" (by decide)

/-- C9: a partial update changes exactly the provided fields among
    title, description, status, priority, dueDate and tags; every field
    absent from the payload keeps the previous stored value, and
    completedAt is never changed by the update route, in particular when
    the payload does not include status. -/
theorem c9_partial_update_frame
    (store : List Task) (requesterId taskId : Nat) (p : UpdatePayload) (now : Int)
    (t0 : Task) (st : List Task) (t : Task)
    (hfind : store.find? (fun u => u.id == taskId) = some t0)
    (h : updateTask store requesterId taskId p now = .ok st t) :
    ((∀ x, p.title = some x → t.title = x) ∧ (p.title = none → t.title = t0.title))
    ∧ ((∀ x, p.description = some x → t.description = some x)
        ∧ (p.description = none → t.description = t0.description))
    ∧ ((∀ x, p.status = some x → t.status = x) ∧ (p.status = none → t.status = t0.status))
    ∧ ((∀ x, p.priority = some x → t.priority = x)
        ∧ (p.priority = none → t.priority = t0.priority))
    ∧ ((∀ x, p.dueDate = some x → t.dueDate = x) ∧ (p.dueDate = none → t.dueDate = t0.dueDate))
    ∧ ((∀ x, p.tags = some x → t.tags = x) ∧ (p.tags = none → t.tags = t0.tags))
    ∧ t.completedAt = t0.completedAt := by
  unfold updateTask at h
  split at h
  · exact UpdateResult.noConfusion h
  · split at h
    · exact UpdateResult.noConfusion h
    · split at h
      · exact UpdateResult.noConfusion h
      · rw [hfind] at h
        cases h
        refine ⟨⟨?_, ?_⟩, ⟨?_, ?_⟩, ⟨?_, ?_⟩, ⟨?_, ?_⟩, ⟨?_, ?_⟩, ⟨?_, ?_⟩, ?_⟩ <;>
          first
          | (intro x hx; simp [applyUpdateData, hx])
          | (intro hx; simp [applyUpdateData, hx])
          | simp [applyUpdateData]

/-- C9 witness: a title-only update leaves every other field, including
    completedAt, at its previous value. -/
theorem c9_partial_update_frame_witness :
    ((∀ x, ({ emptyUpdate with title := some "New" } : UpdatePayload).title = some x →
        ({ baseTask with title := "New", updatedAt := 9 } : Task).title = x)
      ∧ (({ emptyUpdate with title := some "New" } : UpdatePayload).title = none →
          ({ baseTask with title := "New", updatedAt := 9 } : Task).title = baseTask.title))
    ∧ ((∀ x, ({ emptyUpdate with title := some "New" } : UpdatePayload).description = some x →
          ({ baseTask with title := "New", updatedAt := 9 } : Task).description = some x)
        ∧ (({ emptyUpdate with title := some "New" } : UpdatePayload).description = none →
            ({ baseTask with title := "New", updatedAt := 9 } : Task).description
              = baseTask.description))
    ∧ ((∀ x, ({ emptyUpdate with title := some "New" } : UpdatePayload).status = some x →
          ({ baseTask with title := "New", updatedAt := 9 } : Task).status = x)
        ∧ (({ emptyUpdate with title := some "New" } : UpdatePayload).status = none →
            ({ baseTask with title := "New", updatedAt := 9 } : Task).status = baseTask.status))
    ∧ ((∀ x, ({ emptyUpdate with title := some "New" } : UpdatePayload).priority = some x →
          ({ baseTask with title := "New", updatedAt := 9 } : Task).priority = x)
        ∧ (({ emptyUpdate with title := some "New" } : UpdatePayload).priority = none →
            ({ baseTask with title := "New", updatedAt := 9 } : Task).priority
              = baseTask.priority))
    ∧ ((∀ x, ({ emptyUpdate with title := some "New" } : UpdatePayload).dueDate = some x →
          ({ baseTask with title := "New", updatedAt := 9 } : Task).dueDate = x)
        ∧ (({ emptyUpdate with title := some "New" } : UpdatePayload).dueDate = none →
            ({ baseTask with title := "New", updatedAt := 9 } : Task).dueDate
              = baseTask.dueDate))
    ∧ ((∀ x, ({ emptyUpdate with title := some "New" } : UpdatePayload).tags = some x →
          ({ baseTask with title := "New", updatedAt := 9 } : Task).tags = x)
        ∧ (({ emptyUpdate with title := some "New" } : UpdatePayload).tags = none →
            ({ baseTask with title := "New", updatedAt := 9 } : Task).tags = baseTask.tags))
    ∧ ({ baseTask with title := "New", updatedAt := 9 } : Task).completedAt
        = baseTask.completedAt :=
  c9_partial_update_frame [baseTask] 7 1 { emptyUpdate with title := some "New" } 9 baseTask
    [{ baseTask with title := "New", updatedAt := 9 }]
    { baseTask with title := "New", updatedAt := 9 } (by decide) (by decide)

/-- C10: a server-side list query with a dueBefore or dueAfter filter
    excludes tasks without a due date from both the returned items and
    the total, although the same task matches when no date filter is
    given; the client-side filterTasks helper instead lets such tasks
    pass its date filters. -/
theorem c10_date_filters_missing_dueDate
    (o : Nat) (t : Task) (d : Int)
    (hdue : t.dueDate = none) (huser : t.user = o) :
    matchesQuery (buildMongoQuery o { emptyRawQuery with dueBefore := some (.valid d) }) t = false
    ∧ matchesQuery (buildMongoQuery o { emptyRawQuery with dueAfter := some (.valid d) }) t
        = false
    ∧ matchesQuery (buildMongoQuery o emptyRawQuery) t = true
    ∧ listTasks [t] o { emptyRawQuery with dueBefore := some (.valid d) } = .ok [] 0 0
    ∧ taskPassesClientFilters { emptyClientFilters with dueBefore := some d } t = true
    ∧ taskPassesClientFilters { emptyClientFilters with dueAfter := some d } t = true := by
  refine ⟨?_, ?_, ?_, ?_, ?_, ?_⟩ <;>
    simp [matchesQuery, buildMongoQuery, emptyRawQuery, dateVal, hdue, huser,
      taskPassesClientFilters, emptyClientFilters, listTasks, listQueryErrors, optCheck,
      isInvalidDate, buildDescriptor]

/-- C10 witness: the base task, which has no due date, under owner 7 and
    bound 123. -/
theorem c10_date_filters_missing_dueDate_witness :
    matchesQuery (buildMongoQuery 7 { emptyRawQuery with dueBefore := some (.valid 123) })
        baseTask = false
    ∧ matchesQuery (buildMongoQuery 7 { emptyRawQuery with dueAfter := some (.valid 123) })
        baseTask = false
    ∧ matchesQuery (buildMongoQuery 7 emptyRawQuery) baseTask = true
    ∧ listTasks [baseTask] 7 { emptyRawQuery with dueBefore := some (.valid 123) } = .ok [] 0 0
    ∧ taskPassesClientFilters { emptyClientFilters with dueBefore := some 123 } baseTask = true
    ∧ taskPassesClientFilters { emptyClientFilters with dueAfter := some 123 } baseTask = true :=
  c10_date_filters_missing_dueDate 7 baseTask 123 rfl rfl

end TaskApp

